import Mathlib

/-!
Formal model of the `check-availability` worker (intent-parsing chain,
expanding slot search, slot categorization, request validation, and the
error-classification layer of the HTTP handler).

Modelling conventions, chosen to keep every definition executable:

* Timestamps are wall-clock instants in the caller's (fixed-offset) zone,
  measured in whole minutes since an arbitrary local epoch (`ℤ := ℤ`).
  All times manipulated by the code are minute-granular (the parser zeroes
  seconds and milliseconds); `America/Phoenix`, one of the supported zones,
  has a fixed offset, so luxon's `set`/`plus`/`diff` collapse to the integer
  arithmetic below.
* Confidence scores are in hundredths (`60` models `0.6`, the threshold
  `50` models `0.5`), and durations/flexibility are whole hours or minutes
  as noted per field.
* The two external collaborators (chrono-node's grammar and the
  language-understanding service) are oracles: their per-call output is an
  explicit input of the embedding (`ChronoResult` is the first element of
  `chrono.parse`, already reinterpreted in the caller's zone as the source
  does field-by-field; `LLMOutcome` is the raw LLM interaction result).
-/

/-- ASCII lower-casing of one character, modelling the effect of
JavaScript `toLowerCase()` on the ASCII queries used throughout. -/
def lowerChar (c : Char) : Char :=
  if 'A' ≤ c ∧ c ≤ 'Z' then Char.ofNat (c.toNat + 32) else c

/-- Check that `pat` is an initial run of `l` (character-list prefix test). -/
def leadsWith : List Char → List Char → Bool
  | [], _ => true
  | _ :: _, [] => false
  | p :: ps, c :: cs => p == c && leadsWith ps cs

/-- Check that `pat` occurs as a contiguous run inside `l`
(JavaScript `String.prototype.includes`). -/
def hasRun (pat : List Char) : List Char → Bool
  | [] => leadsWith pat []
  | c :: t => leadsWith pat (c :: t) || hasRun pat t

/-- Model of `userQuery.toLowerCase().includes(pat)` from the fallback
parser, for a lower-case pattern `pat`. -/
def queryIncludes (q pat : String) : Bool :=
  hasRun pat.data (q.data.map lowerChar)

/-- Case-sensitive `message.includes(pat)` as used by the error handler. -/
def strHasRun (s pat : String) : Bool :=
  hasRun pat.data s.data

/-- Local midnight of the day containing `t`, as a day index (floor). -/
def DT.dayFloor (t : ℤ) : ℤ := t / 1440

/-- luxon `t.set ⟨hour, minute, second := 0, millisecond := 0⟩`:
same civil day, given hour and minute. -/
def DT.setTime (t : ℤ) (h m : ℤ) : ℤ := DT.dayFloor t * 1440 + h * 60 + m

/-- luxon `t.plus ⟨hours := h⟩` in a fixed-offset zone. -/
def DT.plusHours (t : ℤ) (h : ℤ) : ℤ := t + 60 * h

/-- luxon `t.plus ⟨days := d⟩` in a fixed-offset zone. -/
def DT.plusDays (t : ℤ) (d : ℤ) : ℤ := t + 1440 * d

/-- The `hour` component [0, 23] of `t`. -/
def DT.hourOf (t : ℤ) : ℤ := t / 60 % 24

/-- The `minute` component [0, 59] of `t`. -/
def DT.minuteOf (t : ℤ) : ℤ := t % 60

/-- One entry of the caller-supplied `rejectedTimes` array, abstracted to
its `DateTime.fromISO` parse in the caller's zone (`none` models an
invalid ISO string, which `avoidRejectedTimes` filters out). -/
structure RejEntry where
  parsed : Option ℤ
deriving DecidableEq

/-- First result of `chrono.parse(userQuery, refDate, forwardDate)`, with
its date components already rebuilt in the caller's zone exactly as
`fallbackParse` does (seconds and milliseconds zeroed). `hourCertain`
models `result.start.isCertain ⟨hour⟩`; `endDate` models the optional
`result.end`. -/
structure ChronoResult where
  startDate : ℤ
  hourCertain : Bool
  endDate : Option ℤ
deriving DecidableEq

/-- The shape returned by both parser stages (`LLMDateParseResponse` in
`types.ts`), with the interpretation text dropped (no claim mentions it)
and confidence in hundredths. -/
structure LLMDateParseResponse where
  startTime : ℤ
  endTime : ℤ
  confidence : ℤ
deriving DecidableEq

/-- `defaultTimeSlot` from the fallback parser: tomorrow at 10:00, one
hour long, confidence 0.3. -/
def defaultTimeSlot (now : ℤ) : LLMDateParseResponse :=
  let tomorrow10am := DT.setTime (DT.plusDays now 1) 10 0
  ⟨tomorrow10am, DT.plusHours tomorrow10am 1, 30⟩

/-- `avoidRejectedTimes` from the fallback parser: scan the parsed
rejected times in order and, at the first one within 30 minutes of the
proposed start, return the start shifted forward one hour; the shifted
value is never re-checked. -/
def avoidRejectedTimes (proposedStart : ℤ) (rejected : List ℤ) : ℤ :=
  match rejected with
  | [] => proposedStart
  | rejectedTime :: rest =>
    if |proposedStart - rejectedTime| < 30 then DT.plusHours proposedStart 1
    else avoidRejectedTimes proposedStart rest

/-- `fallbackParse` from `fallback-parser.ts`: chrono result, then the
ordered time-of-day heuristics, then the `same time` override, then the
rejected-time avoidance step (which also resets the end to start + 1 h
whenever the caller supplied a non-empty `rejectedTimes` array). -/
def fallbackParse (userQuery : String) (now : ℤ)
    (rejectedTimes : Option (List RejEntry)) (chrono : Option ChronoResult) :
    LLMDateParseResponse :=
  match chrono with
  | none => defaultTimeSlot now
  | some result =>
    let start0 := result.startDate
    let end0 := match result.endDate with
      | some e => e
      | none => DT.plusHours start0 1
    let se1 : ℤ × ℤ :=
      if queryIncludes userQuery "lunch" then
        let s := DT.setTime start0 11 30
        (s, DT.plusHours s 2)
      else if queryIncludes userQuery "morning" then
        let s := DT.setTime start0 9 0
        (s, DT.setTime s 12 0)
      else if queryIncludes userQuery "afternoon" then
        let s := DT.setTime start0 13 0
        (s, DT.setTime s 17 0)
      else if queryIncludes userQuery "evening" then
        let s := DT.setTime start0 17 0
        (s, DT.setTime s 20 0)
      else if !result.hourCertain then
        let s := DT.setTime start0 10 0
        (s, DT.plusHours s 1)
      else (start0, end0)
    let se2 : ℤ × ℤ :=
      if queryIncludes userQuery "same time" then
        let s := DT.setTime se1.1 (DT.hourOf now) (DT.minuteOf now)
        (s, DT.plusHours s 1)
      else se1
    let se3 : ℤ × ℤ :=
      match rejectedTimes with
      | some l =>
        if 0 < l.length then
          let s := avoidRejectedTimes se2.1 (l.filterMap RejEntry.parsed)
          (s, DT.plusHours s 1)
        else se2
      | none => se2
    ⟨se3.1, se3.2, 60⟩

/-- A candidate extracted from the LLM's text: JSON parsed, with both
timestamps valid ISO instants (minute-granular), the interpretation's
length, and the confidence in hundredths. -/
structure LLMCandidate where
  startTime : ℤ
  endTime : ℤ
  interpretationLength : ℕ
  confidence : ℤ
deriving DecidableEq

/-- Raw outcome of one language-understanding call: `failure` covers
transport errors, the 10-second timeout, a response with no text block,
unparseable JSON, and timestamps that are not valid ISO datetimes; a
`candidate` is a successfully extracted JSON object. -/
inductive LLMOutcome where
  | failure
  | candidate (c : LLMCandidate)
deriving DecidableEq

/-- `validateLLMResponse` from `validation.ts`: zod bounds on the
interpretation length (10–200) and the confidence (0–1). -/
def validateLLMResponse (c : LLMCandidate) : Option LLMCandidate :=
  if 10 ≤ c.interpretationLength ∧ c.interpretationLength ≤ 200
      ∧ 0 ≤ c.confidence ∧ c.confidence ≤ 100 then some c
  else none

/-- Outcome of `buildDateParsingPrompt`: `none` models the `TypeError`
raised by calling `.trim()` on the `rejectedTimes` value. The orchestrator
passes the request's `rejectedTimes` *array* into the prompt context
(whose type declares a single string); in JavaScript an array — even an
empty one — is truthy and has no `trim` method, so both the custom-prompt
branch (via `formatRejectedTimes`) and the default branch throw whenever
the field is present, and succeed when it is `undefined`. -/
def buildDateParsingPrompt (hasSystemPrompt : Bool)
    (rejectedTimes : Option (List RejEntry)) : Option Unit :=
  if hasSystemPrompt then
    match rejectedTimes with
    | none => some ()
    | some _ => none
  else
    match rejectedTimes with
    | none => some ()
    | some _ => none

/-- `LLMDateParser.parse` from `llm.ts`: build the prompt (a thrown
`TypeError` is caught by the surrounding try/catch and yields `null`),
then require a JSON candidate, zod validation, confidence at least 0.5,
valid instants, and a positive span; any violation yields `null`. -/
def llmParse (hasSystemPrompt : Bool) (rejectedTimes : Option (List RejEntry))
    (raw : LLMOutcome) : Option LLMCandidate :=
  match buildDateParsingPrompt hasSystemPrompt rejectedTimes with
  | none => none
  | some _ =>
    match raw with
    | LLMOutcome.failure => none
    | LLMOutcome.candidate c =>
      match validateLLMResponse c with
      | none => none
      | some validated =>
        if validated.confidence < 50 then none
        else if validated.endTime ≤ validated.startTime then none
        else some validated

/-- The `method` tag of `ParseDateResult` in `types.ts`. -/
inductive ParseMethod where
  | llm
  | fallback_chrono
  | fallback_default
deriving DecidableEq

/-- `ParseDateResult` from `types.ts` (interpretation text dropped). -/
structure ParseDateResult where
  startTime : ℤ
  endTime : ℤ
  confidence : ℤ
  method : ParseMethod
deriving DecidableEq

/-- `parseUserQuery` from the availability orchestrator: primary LLM
attempt, else the chrono fallback, tagged `fallback_chrono` when its
confidence exceeds 0.5 and `fallback_default` otherwise. -/
def parseUserQuery (userQuery : String) (now : ℤ)
    (rejectedTimes : Option (List RejEntry)) (hasSystemPrompt : Bool)
    (chrono : Option ChronoResult) (llmRaw : LLMOutcome) : ParseDateResult :=
  match llmParse hasSystemPrompt rejectedTimes llmRaw with
  | some v => ⟨v.startTime, v.endTime, v.confidence, ParseMethod.llm⟩
  | none =>
    let fallbackResult := fallbackParse userQuery now rejectedTimes chrono
    ⟨fallbackResult.startTime, fallbackResult.endTime, fallbackResult.confidence,
      if 50 < fallbackResult.confidence then ParseMethod.fallback_chrono
      else ParseMethod.fallback_default⟩

/-- `CalSlot` from `types.ts`, with ISO strings abstracted to their
instants (the Cal client emits one canonical ISO form, so exact string
equality of slot starts coincides with instant equality). -/
structure CalSlot where
  start : ℤ
  «end» : ℤ
deriving DecidableEq

/-- `ProposedSlot` from `types.ts`: a slot plus distance and reason. -/
structure ProposedSlot where
  start : ℤ
  «end» : ℤ
  distanceMinutes : ℤ
  reason : String
deriving DecidableEq

/-- What one `queryCalAvailability` call produces for one search window:
`err` covers transport errors, the 5-second timeout and non-2xx statuses
(all thrown, caught by the search loop and treated as zero results);
`ok` carries the transformed slot list. -/
inductive SlotResp where
  | err
  | ok (slots : List CalSlot)
deriving DecidableEq

/-- Oracle for the slot source: the response it would give to each of the
four expanding search attempts, in order. -/
structure SlotSource where
  attempt1 : SlotResp
  attempt2 : SlotResp
  attempt3 : SlotResp
  attempt4 : SlotResp
deriving DecidableEq

/-- The four per-attempt responses in attempt order. -/
def SlotSource.toList (s : SlotSource) : List SlotResp :=
  [s.attempt1, s.attempt2, s.attempt3, s.attempt4]

/-- `applyFlexibility` from the orchestrator: widen a range by
`flexibilityHours` hours on each side. -/
def applyFlexibility (start finish : ℤ) (flexibilityHours : ℤ) : ℤ × ℤ :=
  (start - 60 * flexibilityHours, finish + 60 * flexibilityHours)

/-- One entry of the `attempts` array in `getGuaranteedSlots`. -/
structure SearchAttempt where
  rangeStart : ℤ
  rangeEnd : ℤ
  label : String
deriving DecidableEq

/-- The `attempts` array of `getGuaranteedSlots`: the four expanding
windows, in source order. -/
def searchAttempts (parseResult : ParseDateResult) (flexibilityHours : ℤ) :
    List SearchAttempt :=
  [ ⟨(applyFlexibility parseResult.startTime parseResult.endTime flexibilityHours).1,
     (applyFlexibility parseResult.startTime parseResult.endTime flexibilityHours).2,
     "requested_range"⟩,
    ⟨DT.plusHours parseResult.startTime (-24), DT.plusHours parseResult.endTime 24,
     "plus_24h"⟩,
    ⟨DT.plusDays parseResult.startTime (-7), DT.plusDays parseResult.endTime 7,
     "plus_7d"⟩,
    ⟨parseResult.startTime, DT.plusDays parseResult.startTime 30, "next_30d"⟩ ]

/-- Per-attempt result after the rejected-time filter: an errored attempt
contributes no slots; a successful one is filtered by exact start match
against the caller-supplied rejected starts. -/
def respFiltered (rejectedStarts : List ℤ) : SlotResp → List CalSlot
  | SlotResp.err => []
  | SlotResp.ok slots => slots.filter (fun slot => !(rejectedStarts.contains slot.start))

/-- The `for … of attempts` loop of `getGuaranteedSlots`: issue attempts
in order, stop at the first whose filtered result is non-empty. Returns
the number of attempts issued and the retained slot list. -/
def searchLoop (rejectedStarts : List ℤ) : List SlotResp → ℕ × List CalSlot
  | [] => (0, [])
  | r :: rest =>
    let filtered := respFiltered rejectedStarts r
    if filtered.isEmpty then
      let tail := searchLoop rejectedStarts rest
      (tail.1 + 1, tail.2)
    else (1, filtered)

/-- Number of slot-source queries issued for one request. -/
def queriesIssued (rejectedStarts : List ℤ) (src : SlotSource) : ℕ :=
  (searchLoop rejectedStarts src.toList).1

/-- The `allSlots` variable after the loop: the filtered result of the
attempt that succeeded, or `[]` when all four attempts came up empty. -/
def foundSlots (rejectedStarts : List ℤ) (src : SlotSource) : List CalSlot :=
  (searchLoop rejectedStarts src.toList).2

/-- `calculateReason` from the orchestrator. The source computes the
signed difference in fractional hours; at minute granularity the guards
`3`, `24` hours and the day floors `diff / 24` become the minute
thresholds below (`180 = 3 * 60`, `1440 = 24 * 60`). -/
def calculateReason (slotStart requestedStart : ℤ) : String :=
  let d := slotStart - requestedStart
  if |d| < 180 then "Very close to requested time"
  else if 0 < d ∧ d < 1440 then "Same day, later time"
  else if d < 0 ∧ -1440 < d then "Same day, earlier time"
  else if 0 < d then toString (d / 1440) ++ " days later"
  else toString (|d| / 1440) ++ " days earlier"

/-- The proposed-slot annotation inside `getGuaranteedSlots`: keep the
slot, add `distanceMinutes` and `reason`. -/
def annotateProposed (requestedStart : ℤ) (slot : CalSlot) : ProposedSlot :=
  ⟨slot.start, slot.«end», |slot.start - requestedStart|,
   calculateReason slot.start requestedStart⟩

/-- Stable ascending insertion by `distanceMinutes` (auxiliary for
`sortByDistance`). -/
def insertByDistance (x : ProposedSlot) : List ProposedSlot → List ProposedSlot
  | [] => [x]
  | y :: ys =>
    if y.distanceMinutes < x.distanceMinutes then y :: insertByDistance x ys
    else x :: y :: ys

/-- JavaScript `Array.prototype.sort` with the comparator
`a.distanceMinutes - b.distanceMinutes` is the stable ascending sort by
`distanceMinutes`; stable sorted rearrangements are unique, so this
structural insertion sort computes the same list. -/
def sortByDistance : List ProposedSlot → List ProposedSlot
  | [] => []
  | x :: xs => insertByDistance x (sortByDistance xs)

/-- The categorized result of `getGuaranteedSlots` (timing metadata
dropped). -/
structure GuaranteedSlots where
  available : List CalSlot
  proposed : List ProposedSlot
deriving DecidableEq

/-- The `available` membership test: slot start inside the requested
window, both ends inclusive. -/
def isInIntentWindow (requestedStart requestedEnd : ℤ) (slot : CalSlot) : Bool :=
  decide (requestedStart ≤ slot.start) && decide (slot.start ≤ requestedEnd)

/-- The message of the terminal error thrown when all attempts are empty. -/
def noAvailabilityMessage : String :=
  "No availability found in the next 30 days. Please contact directly."

/-- `getGuaranteedSlots` from the orchestrator: run the expanding search
(over the `searchAttempts` windows, answered by the `src` oracle), throw
the no-availability error when nothing survives, otherwise categorize
into `available` and the 10 closest `proposed` alternatives. -/
def getGuaranteedSlots (parseResult : ParseDateResult) (flexibilityHours : ℤ)
    (rejectedStarts : List ℤ) (src : SlotSource) : Except String GuaranteedSlots :=
  let _ := searchAttempts parseResult flexibilityHours
  let allSlots := foundSlots rejectedStarts src
  if allSlots.isEmpty then Except.error noAvailabilityMessage
  else
    let llmStart := parseResult.startTime
    let llmEnd := parseResult.endTime
    let available := allSlots.filter (isInIntentWindow llmStart llmEnd)
    let proposed :=
      (sortByDistance
        ((allSlots.filter
            (fun slot => !(available.any (fun a => a.start == slot.start)))).map
          (annotateProposed llmStart))).take 10
    Except.ok ⟨available, proposed⟩

/-- Status and machine-readable code of one `errorResponse`. -/
structure ErrorResponsePayload where
  status : ℕ
  code : String
deriving DecidableEq

/-- The catch-block of `handleCheckAvailability`: ordered
`message.includes` tests mapping a thrown error to an HTTP payload. -/
def classifyError (message : String) : ErrorResponsePayload :=
  if strHasRun message "Cal.com API" then ⟨503, "CAL_API_ERROR"⟩
  else if strHasRun message "No availability found" then ⟨200, "NO_AVAILABILITY"⟩
  else if strHasRun message "LLM" then ⟨400, "PARSING_ERROR"⟩
  else ⟨500, "PROCESSING_ERROR"⟩

/-- `US_TIMEZONES` from `types.ts`. -/
def US_TIMEZONES : List String :=
  ["America/New_York", "America/Chicago", "America/Denver", "America/Los_Angeles",
   "America/Phoenix", "America/Anchorage", "Pacific/Honolulu"]

/-- `ConversationMessage` from `types.ts` (fields as raw strings). -/
structure ConversationMessage where
  role : String
  content : String
  timestamp : String
deriving DecidableEq

/-- An inbound request body before validation: each zod field is `none`
when absent. `flexibilityHours` is in whole hours and `duration` in whole
minutes (the zod schema marks `duration` `.int()`; whole-hour flexibility
is the modelled granularity). -/
structure RawAvailabilityRequest where
  timeZone : Option String
  userMessage : Option String
  flexibilityHours : Option ℤ
  systemPrompt : Option String
  rejectedTimes : Option (List String)
  duration : Option ℤ
  conversationHistory : Option (List ConversationMessage)

/-- A request accepted by the schema, with defaults applied. -/
structure AvailabilityRequestValidated where
  timeZone : String
  userMessage : String
  flexibilityHours : ℤ
  systemPrompt : Option String
  rejectedTimes : Option (List String)
  duration : ℤ
  conversationHistory : Option (List ConversationMessage)

/-- The `ConversationMessageSchema` role enum check. -/
def validRole (m : ConversationMessage) : Bool :=
  m.role == "user" || m.role == "assistant" || m.role == "system"

/-- `AvailabilityRequestSchema.parse` from `validation.ts`: `timeZone`
drawn from `US_TIMEZONES`, `userMessage` of 1–2000 characters, optional
`systemPrompt` of at most 10000 characters, `flexibilityHours` in
[0, 24] defaulting to 2, optional `rejectedTimes` of at most 50 strings
(their content is not validated), integer `duration` in [15, 180]
defaulting to 30, and an optional `conversationHistory` with enum roles.
`none` models a thrown `ZodError`. -/
def AvailabilityRequestSchema (r : RawAvailabilityRequest) :
    Option AvailabilityRequestValidated :=
  match r.timeZone, r.userMessage with
  | some tz, some msg =>
    if US_TIMEZONES.contains tz
        && decide (1 ≤ msg.length) && decide (msg.length ≤ 2000)
        && (match r.flexibilityHours with
            | none => true
            | some f => decide (0 ≤ f) && decide (f ≤ 24))
        && (match r.systemPrompt with
            | none => true
            | some sp => decide (sp.length ≤ 10000))
        && (match r.rejectedTimes with
            | none => true
            | some ts => decide (ts.length ≤ 50))
        && (match r.duration with
            | none => true
            | some d => decide (15 ≤ d) && decide (d ≤ 180))
        && (match r.conversationHistory with
            | none => true
            | some hist => hist.all validRole)
    then some ⟨tz, msg, r.flexibilityHours.getD 2, r.systemPrompt, r.rejectedTimes,
               r.duration.getD 30, r.conversationHistory⟩
    else none
  | _, _ => none

/-- The reason table exactly as the claim states it, as an ordered guard
list over the signed minute difference `d` (the claim's hour thresholds
`3` and `24` are `180` and `1440` minutes; `floor (d / 24)` over hours is
`d / 1440` over minutes, Euclidean division being floor division for a positive divisor). `none` would mean no guard applies; the
equivalence theorem shows the list is exhaustive. -/
def claimReason (d : ℤ) : Option String :=
  if |d| < 3 * 60 then some "Very close to requested time"
  else if 0 < d ∧ d < 24 * 60 then some "Same day, later time"
  else if -(24 * 60) < d ∧ d < 0 then some "Same day, earlier time"
  else if 24 * 60 ≤ d then some (toString (d / (24 * 60)) ++ " days later")
  else if d ≤ -(24 * 60) then some (toString (|d| / (24 * 60)) ++ " days earlier")
  else none

theorem avoidRejectedTimes_eq (s : ℤ) (l : List ℤ) :
    avoidRejectedTimes s l =
      if l.any (fun r => decide (|s - r| < 30)) then DT.plusHours s 1 else s := by
  induction l with
  | nil => simp [avoidRejectedTimes]
  | cons r rest ih =>
    simp only [avoidRejectedTimes, List.any_cons]
    by_cases hc : |s - r| < 30
    · simp [hc]
    · simp [hc, ih]

theorem llmParse_rejected (hasSP : Bool) (l : List RejEntry) (raw : LLMOutcome) :
    llmParse hasSP (some l) raw = none := by
  cases hasSP <;> rfl

theorem llmParse_some_inv (hasSP : Bool) (rej : Option (List RejEntry)) (raw : LLMOutcome)
    (v : LLMCandidate) (h : llmParse hasSP rej raw = some v) :
    50 ≤ v.confidence ∧ v.startTime < v.endTime := by
  unfold llmParse at h
  split at h
  · exact absurd h (by simp)
  · split at h
    · exact absurd h (by simp)
    · split at h
      · exact absurd h (by simp)
      · split at h
        · exact absurd h (by simp)
        · split at h
          · exact absurd h (by simp)
          · cases h
            exact ⟨by omega, by omega⟩

theorem mem_insertByDistance (x a : ProposedSlot) (l : List ProposedSlot) :
    a ∈ insertByDistance x l ↔ a = x ∨ a ∈ l := by
  induction l with
  | nil => simp [insertByDistance]
  | cons y ys ih =>
    simp only [insertByDistance]
    split
    · simp only [List.mem_cons, ih]
      try tauto
    · simp only [List.mem_cons]
      try tauto

theorem mem_sortByDistance (a : ProposedSlot) (l : List ProposedSlot) :
    a ∈ sortByDistance l ↔ a ∈ l := by
  induction l with
  | nil => simp [sortByDistance]
  | cons y ys ih => simp [sortByDistance, mem_insertByDistance, ih]

theorem length_insertByDistance (x : ProposedSlot) (l : List ProposedSlot) :
    (insertByDistance x l).length = l.length + 1 := by
  induction l with
  | nil => rfl
  | cons y ys ih =>
    simp only [insertByDistance]
    split <;> simp [ih]

theorem length_sortByDistance (l : List ProposedSlot) :
    (sortByDistance l).length = l.length := by
  induction l with
  | nil => rfl
  | cons y ys ih => simp [sortByDistance, length_insertByDistance, ih]

theorem searchLoop_fst_le_length (rej : List ℤ) (l : List SlotResp) :
    (searchLoop rej l).1 ≤ l.length := by
  induction l with
  | nil => simp [searchLoop]
  | cons r rest ih =>
    simp only [searchLoop, List.length_cons]
    split
    · simpa using Nat.succ_le_succ ih
    · simp

theorem searchLoop_stop (rej : List ℤ) (l : List SlotResp) (k : ℕ)
    (h : respFiltered rej (l.getD k SlotResp.err) ≠ []) :
    (searchLoop rej l).1 ≤ k + 1 := by
  induction l generalizing k with
  | nil =>
    simp [List.getD, respFiltered] at h
  | cons r rest ih =>
    cases k with
    | zero =>
      rw [List.getD_cons_zero] at h
      simp only [searchLoop]
      split
      · rename_i hemp
        exact absurd (List.isEmpty_iff.mp hemp) h
      · simp
    | succ k =>
      rw [List.getD_cons_succ] at h
      simp only [searchLoop]
      split
      · have := ih k h
        omega
      · omega

theorem searchLoop_all_empty (rej : List ℤ) (l : List SlotResp)
    (h : ∀ r ∈ l, respFiltered rej r = []) :
    searchLoop rej l = (l.length, []) := by
  induction l with
  | nil => rfl
  | cons r rest ih =>
    have h0 : respFiltered rej r = [] := h r (List.mem_cons_self r rest)
    have ht := ih (fun x hx => h x (List.mem_cons_of_mem r hx))
    simp [searchLoop, h0, ht]

theorem claimReason_eq (s r : ℤ) :
    claimReason (s - r) = some (calculateReason s r) := by
  simp only [claimReason, calculateReason]
  have h1 : (3 * 60 : ℤ) = 180 := by norm_num
  have h2 : (24 * 60 : ℤ) = 1440 := by norm_num
  rw [h1, h2]
  rcases le_or_lt 0 (s - r) with hd | hd
  · rw [abs_of_nonneg hd]
    split_ifs <;> first | rfl | omega
  · rw [abs_of_neg hd]
    split_ifs <;> first | rfl | omega

/-- C1: counterexample. The claim states that every query containing
"lunch" yields start 11:30 local and end = start + 2 h for any
rejectedTimes list and any parser stage. Here the heuristic stage parses
"lunch tomorrow" with a non-empty rejectedTimes list whose entry is
nowhere near 11:30: the start is 11:30 as claimed, but the
rejected-times step then resets the end to start + 1 h (13:30 becomes
12:30), so end ≠ start + 2 h. -/
theorem claim_C1_counterexample :
    queryIncludes "lunch tomorrow" "lunch" = true ∧
    (parseUserQuery "lunch tomorrow" 0 (some [⟨some 0⟩]) false
        (some ⟨2160, false, none⟩) LLMOutcome.failure).startTime =
      DT.setTime 2160 11 30 ∧
    (parseUserQuery "lunch tomorrow" 0 (some [⟨some 0⟩]) false
        (some ⟨2160, false, none⟩) LLMOutcome.failure).endTime =
      DT.plusHours (DT.setTime 2160 11 30) 1 ∧
    (parseUserQuery "lunch tomorrow" 0 (some [⟨some 0⟩]) false
        (some ⟨2160, false, none⟩) LLMOutcome.failure).endTime <
      DT.plusHours (DT.setTime 2160 11 30) 2 := by
  decide

/-- C1 (amended): for a query containing "lunch" and not containing
"same time", resolved by the heuristic fallback stage (primary parse
failed, chrono produced a result), with no rejectedTimes supplied (absent
or empty), the Intent has start = 11:30 local on the chrono-resolved day
and end = start + 2 hours. The default stage (tomorrow 10:00–11:00
regardless of text), a "same time" override, a non-empty rejectedTimes
list (end reset to start + 1 h, start possibly shifted), and the primary
stage (free-form validated LLM output) are genuine exceptions. -/
theorem claim_C1_amended (q : String) (now : ℤ) (rej : Option (List RejEntry))
    (hasSP : Bool) (r : ChronoResult) (raw : LLMOutcome)
    (hlunch : queryIncludes q "lunch" = true)
    (hsame : queryIncludes q "same time" = false)
    (hrej : rej = none ∨ rej = some [])
    (hllm : llmParse hasSP rej raw = none) :
    (parseUserQuery q now rej hasSP (some r) raw).startTime =
      DT.setTime r.startDate 11 30 ∧
    (parseUserQuery q now rej hasSP (some r) raw).endTime =
      DT.plusHours (DT.setTime r.startDate 11 30) 2 := by
  unfold parseUserQuery
  rw [hllm]
  rcases hrej with h | h <;> subst h <;> simp [fallbackParse, hlunch, hsame]

/-- C1 witness: a concrete heuristic-stage run of the amended claim. -/
theorem claim_C1_witness :
    (parseUserQuery "lunch" 0 none false (some ⟨720, false, none⟩)
        LLMOutcome.failure).startTime = DT.setTime 720 11 30 ∧
    (parseUserQuery "lunch" 0 none false (some ⟨720, false, none⟩)
        LLMOutcome.failure).endTime = DT.plusHours (DT.setTime 720 11 30) 2 :=
  claim_C1_amended "lunch" 0 none false ⟨720, false, none⟩ LLMOutcome.failure
    (by decide) (by decide) (Or.inl rfl) (by decide)

/-- C2: counterexample. The claim states that no found slot is dropped
from `available ∪ proposed`. With eleven found slots all outside the
intended window, `proposed` is truncated to the ten closest, so the slot
starting at 10600 survives the rejected-time filter of the succeeding
attempt but appears in neither output list. -/
theorem claim_C2_counterexample :
    ((10600 : ℤ) ∈ (foundSlots []
        ⟨SlotResp.ok [⟨10000, 10030⟩, ⟨10060, 10090⟩, ⟨10120, 10150⟩,
            ⟨10180, 10210⟩, ⟨10240, 10270⟩, ⟨10300, 10330⟩, ⟨10360, 10390⟩,
            ⟨10420, 10450⟩, ⟨10480, 10510⟩, ⟨10540, 10570⟩, ⟨10600, 10630⟩],
          SlotResp.err, SlotResp.err, SlotResp.err⟩).map CalSlot.start) ∧
    ((getGuaranteedSlots ⟨0, 60, 60, ParseMethod.fallback_chrono⟩ 2 []
        ⟨SlotResp.ok [⟨10000, 10030⟩, ⟨10060, 10090⟩, ⟨10120, 10150⟩,
            ⟨10180, 10210⟩, ⟨10240, 10270⟩, ⟨10300, 10330⟩, ⟨10360, 10390⟩,
            ⟨10420, 10450⟩, ⟨10480, 10510⟩, ⟨10540, 10570⟩, ⟨10600, 10630⟩],
          SlotResp.err, SlotResp.err, SlotResp.err⟩).toOption.map
      (fun res => ((res.available.map CalSlot.start).contains 10600 ||
                   (res.proposed.map ProposedSlot.start).contains 10600))) =
      some false := by
  decide

/-- C2 (amended): for every successful run, every start time listed in
`available` or `proposed` comes from the filtered slot list of the
attempt that succeeded (nothing is invented), and — provided at most ten
of the found slots fall outside the intended window — every filtered
slot's start appears in `available ∪ proposed` (nothing is dropped).
When more than ten fall outside, the ten-slot truncation of `proposed`
may drop the farthest ones. -/
theorem claim_C2_amended (p : ParseDateResult) (flex : ℤ) (rej : List ℤ)
    (src : SlotSource) (res : GuaranteedSlots)
    (h : getGuaranteedSlots p flex rej src = Except.ok res) :
    (∀ x, (x ∈ res.available.map CalSlot.start ∨
           x ∈ res.proposed.map ProposedSlot.start) →
        x ∈ (foundSlots rej src).map CalSlot.start) ∧
    (((foundSlots rej src).filter
        (fun s => !(isInIntentWindow p.startTime p.endTime s))).length ≤ 10 →
      ∀ x, x ∈ (foundSlots rej src).map CalSlot.start →
        (x ∈ res.available.map CalSlot.start ∨
         x ∈ res.proposed.map ProposedSlot.start)) := by
  simp only [getGuaranteedSlots] at h
  split at h
  · exact absurd h (by simp)
  · rename_i hne
    cases h
    constructor
    · intro x hx
      rcases hx with hx | hx
      · obtain ⟨s, hs, rfl⟩ := List.mem_map.mp hx
        exact List.mem_map.mpr ⟨s, (List.mem_filter.mp hs).1, rfl⟩
      · obtain ⟨q, hq, rfl⟩ := List.mem_map.mp hx
        have hq2 := mem_sortByDistance q _ |>.mp (List.mem_of_mem_take hq)
        obtain ⟨s, hs, rfl⟩ := List.mem_map.mp hq2
        exact List.mem_map.mpr ⟨s, (List.mem_filter.mp hs).1, rfl⟩
    · intro hlen x hx
      obtain ⟨s, hsF, rfl⟩ := List.mem_map.mp hx
      cases hw : isInIntentWindow p.startTime p.endTime s with
      | true => exact Or.inl (List.mem_map.mpr ⟨s, List.mem_filter.mpr ⟨hsF, hw⟩, rfl⟩)
      | false =>
        have hwin_congr : ∀ a : CalSlot, a.start = s.start →
            isInIntentWindow p.startTime p.endTime a =
              isInIntentWindow p.startTime p.endTime s := by
          intro a ha
          simp [isInIntentWindow, ha]
        have hany : ((foundSlots rej src).filter
            (isInIntentWindow p.startTime p.endTime)).any
              (fun a => a.start == s.start) = false := by
          rw [List.any_eq_false]
          intro a ha
          intro hbeq
          have hastart : a.start = s.start := by
            exact beq_iff_eq.mp hbeq
          have hwa := (List.mem_filter.mp ha).2
          rw [hwin_congr a hastart, hw] at hwa
          exact Bool.false_ne_true hwa
        have hpred : ∀ t, t ∈ foundSlots rej src →
            ((!((foundSlots rej src).filter
                (isInIntentWindow p.startTime p.endTime)).any
                  (fun a => a.start == t.start)) =
             (!(isInIntentWindow p.startTime p.endTime t))) := by
          intro t ht
          cases hwt : isInIntentWindow p.startTime p.endTime t with
          | true =>
            have : ((foundSlots rej src).filter
                (isInIntentWindow p.startTime p.endTime)).any
                  (fun a => a.start == t.start) = true := by
              rw [List.any_eq_true]
              exact ⟨t, List.mem_filter.mpr ⟨ht, hwt⟩, beq_self_eq_true t.start⟩
            rw [this]
          | false =>
            have hwin_congr_t : ∀ a : CalSlot, a.start = t.start →
                isInIntentWindow p.startTime p.endTime a =
                  isInIntentWindow p.startTime p.endTime t := by
              intro a ha
              simp [isInIntentWindow, ha]
            have : ((foundSlots rej src).filter
                (isInIntentWindow p.startTime p.endTime)).any
                  (fun a => a.start == t.start) = false := by
              rw [List.any_eq_false]
              intro a ha hbeq
              have hastart : a.start = t.start := beq_iff_eq.mp hbeq
              have := (List.mem_filter.mp ha).2
              rw [hwin_congr_t a hastart] at this
              rw [hwt] at this
              exact Bool.false_ne_true this
            rw [this]
        have hfilter_eq : (foundSlots rej src).filter
            (fun slot => !((foundSlots rej src).filter
                (isInIntentWindow p.startTime p.endTime)).any
                  (fun a => a.start == slot.start)) =
            (foundSlots rej src).filter
              (fun t => !(isInIntentWindow p.startTime p.endTime t)) :=
          List.filter_congr hpred
        have hsF2 : s ∈ (foundSlots rej src).filter
            (fun slot => !((foundSlots rej src).filter
                (isInIntentWindow p.startTime p.endTime)).any
                  (fun a => a.start == slot.start)) := by
          rw [hfilter_eq]
          refine List.mem_filter.mpr ⟨hsF, ?_⟩
          simp [hw]
        have hlen2 : ((foundSlots rej src).filter
            (fun slot => !((foundSlots rej src).filter
                (isInIntentWindow p.startTime p.endTime)).any
                  (fun a => a.start == slot.start))).length ≤ 10 := by
          rw [hfilter_eq]
          exact hlen
        have htake : (sortByDistance
            (((foundSlots rej src).filter
              (fun slot => !((foundSlots rej src).filter
                  (isInIntentWindow p.startTime p.endTime)).any
                    (fun a => a.start == slot.start))).map
              (annotateProposed p.startTime))).take 10 =
            sortByDistance
              (((foundSlots rej src).filter
                (fun slot => !((foundSlots rej src).filter
                    (isInIntentWindow p.startTime p.endTime)).any
                      (fun a => a.start == slot.start))).map
                (annotateProposed p.startTime)) := by
          apply List.take_of_length_le
          rw [length_sortByDistance, List.length_map]
          exact hlen2
        refine Or.inr ?_
        rw [htake]
        refine List.mem_map.mpr ⟨annotateProposed p.startTime s, ?_, rfl⟩
        rw [mem_sortByDistance]
        exact List.mem_map.mpr ⟨s, hsF2, rfl⟩

/-- C2 witness: a concrete successful run of the amended claim, with one
found slot inside the window. -/
theorem claim_C2_witness :
    (30 : ℤ) ∈ (foundSlots []
        ⟨SlotResp.ok [⟨30, 60⟩], SlotResp.err, SlotResp.err,
          SlotResp.err⟩).map CalSlot.start :=
  (claim_C2_amended ⟨0, 60, 60, ParseMethod.fallback_chrono⟩ 2 []
      ⟨SlotResp.ok [⟨30, 60⟩], SlotResp.err, SlotResp.err, SlotResp.err⟩
      ⟨[⟨30, 60⟩], []⟩ (by rfl)).1 30 (Or.inl (by decide))

/-- C3: the expanding search tries exactly the four windows
[start − flexibilityHours, end + flexibilityHours], [start − 24 h,
end + 24 h], [start − 7 d, end + 7 d], [start, start + 30 d], in that
order (times in minutes, flexibility in hours), and is monotonic: as
soon as the k-th attempt's response survives the rejected-time filter
with at least one slot, no later attempt is issued (at most k + 1 and
never more than four queries reach the slot source). -/
theorem claim_C3 (p : ParseDateResult) (flex : ℤ) (rej : List ℤ)
    (src : SlotSource) (k : ℕ) (_hk : k < 4)
    (hfound : respFiltered rej (src.toList.getD k SlotResp.err) ≠ []) :
    searchAttempts p flex =
      [ ⟨p.startTime - 60 * flex, p.endTime + 60 * flex, "requested_range"⟩,
        ⟨p.startTime - 24 * 60, p.endTime + 24 * 60, "plus_24h"⟩,
        ⟨p.startTime - 7 * 1440, p.endTime + 7 * 1440, "plus_7d"⟩,
        ⟨p.startTime, p.startTime + 30 * 1440, "next_30d"⟩ ] ∧
    queriesIssued rej src ≤ k + 1 ∧
    queriesIssued rej src ≤ 4 := by
  refine ⟨?_, searchLoop_stop rej src.toList k hfound, ?_⟩
  · simp only [searchAttempts, applyFlexibility, DT.plusHours, DT.plusDays,
      List.cons.injEq, SearchAttempt.mk.injEq, and_true, true_and]
    norm_num
    omega
  · have h4 := searchLoop_fst_le_length rej src.toList
    simpa [SlotSource.toList, queriesIssued] using h4

/-- C3 witness: a concrete run whose first attempt already succeeds. -/
theorem claim_C3_witness :
    searchAttempts ⟨0, 60, 60, ParseMethod.fallback_chrono⟩ 2 =
      [ ⟨0 - 60 * 2, 60 + 60 * 2, "requested_range"⟩,
        ⟨0 - 24 * 60, 60 + 24 * 60, "plus_24h"⟩,
        ⟨0 - 7 * 1440, 60 + 7 * 1440, "plus_7d"⟩,
        ⟨0, 0 + 30 * 1440, "next_30d"⟩ ] ∧
    queriesIssued [] ⟨SlotResp.ok [⟨30, 60⟩], SlotResp.err, SlotResp.err,
        SlotResp.err⟩ ≤ 0 + 1 ∧
    queriesIssued [] ⟨SlotResp.ok [⟨30, 60⟩], SlotResp.err, SlotResp.err,
        SlotResp.err⟩ ≤ 4 :=
  claim_C3 ⟨0, 60, 60, ParseMethod.fallback_chrono⟩ 2 []
    ⟨SlotResp.ok [⟨30, 60⟩], SlotResp.err, SlotResp.err, SlotResp.err⟩ 0
    (by decide) (by decide)

/-- C4: when every one of the four attempts yields zero slots after the
rejected-time filter (source returned none, everything was rejected, or
the attempt errored), the search fails terminally with the
no-availability message after exactly four queries (there is no fifth
attempt), and the handler classifies that message as the business
outcome 200 / NO_AVAILABILITY, not a generic 500-style failure. -/
theorem claim_C4 (p : ParseDateResult) (flex : ℤ) (rej : List ℤ)
    (src : SlotSource)
    (h : ∀ resp ∈ src.toList, respFiltered rej resp = []) :
    getGuaranteedSlots p flex rej src = Except.error noAvailabilityMessage ∧
    queriesIssued rej src = 4 ∧
    classifyError noAvailabilityMessage = ⟨200, "NO_AVAILABILITY"⟩ ∧
    (classifyError noAvailabilityMessage).status < 500 := by
  have hloop := searchLoop_all_empty rej src.toList h
  refine ⟨?_, ?_, by decide, by decide⟩
  · simp [getGuaranteedSlots, foundSlots, hloop]
  · unfold queriesIssued
    rw [hloop]
    simp [SlotSource.toList]

/-- C4 witness: all four attempts error out, so all are empty after
filtering. -/
theorem claim_C4_witness :
    getGuaranteedSlots ⟨0, 60, 60, ParseMethod.fallback_chrono⟩ 2 []
        ⟨SlotResp.err, SlotResp.err, SlotResp.err, SlotResp.err⟩ =
      Except.error noAvailabilityMessage ∧
    queriesIssued [] ⟨SlotResp.err, SlotResp.err, SlotResp.err,
        SlotResp.err⟩ = 4 ∧
    classifyError noAvailabilityMessage = ⟨200, "NO_AVAILABILITY"⟩ ∧
    (classifyError noAvailabilityMessage).status < 500 :=
  claim_C4 ⟨0, 60, 60, ParseMethod.fallback_chrono⟩ 2 []
    ⟨SlotResp.err, SlotResp.err, SlotResp.err, SlotResp.err⟩ (by decide)

/-- C5: counterexample. The claim states rejected-time avoidance is
applied to the output of both fallback stages. Here the default stage
(step 3, chrono found nothing) resolves to tomorrow 10:00 (minute 2040)
while the caller's rejected list contains exactly that instant: the
claim demands a one-hour shift, but the code returns the default slot
unshifted, because the early `parsed.length === 0` return skips the
avoidance block entirely. -/
theorem claim_C5_counterexample :
    (parseUserQuery "whenever works best" 0 (some [⟨some 2040⟩]) false none
        LLMOutcome.failure).method = ParseMethod.fallback_default ∧
    (parseUserQuery "whenever works best" 0 (some [⟨some 2040⟩]) false none
        LLMOutcome.failure).startTime = 2040 ∧
    |(parseUserQuery "whenever works best" 0 (some [⟨some 2040⟩]) false none
        LLMOutcome.failure).startTime - 2040| < 30 ∧
    (parseUserQuery "whenever works best" 0 (some [⟨some 2040⟩]) false none
        LLMOutcome.failure).startTime < DT.plusHours 2040 1 := by
  decide

/-- C5 (amended): rejected-time avoidance applies only to step-2
(heuristic) output, never to step-3 default output or to primary output.
Concretely: (1) when chrono finds nothing, the chain returns the default
slot unchanged whatever the rejectedTimes list; (2) `avoidRejectedTimes`
shifts by exactly one hour when any parsed rejected time is within 30
minutes of the proposed start — a single shift, with no re-checking of
the shifted value; (3) on the heuristic path with a non-empty
rejectedTimes list, the returned start is exactly `avoidRejectedTimes`
of the pre-avoidance start, and the end is reset to start + 1 h. -/
theorem claim_C5_amended :
    (∀ (q : String) (now : ℤ) (rej : Option (List RejEntry)) (hasSP : Bool)
        (raw : LLMOutcome),
      llmParse hasSP rej raw = none →
        parseUserQuery q now rej hasSP none raw =
          ⟨(defaultTimeSlot now).startTime, (defaultTimeSlot now).endTime, 30,
            ParseMethod.fallback_default⟩) ∧
    (∀ (s : ℤ) (l : List ℤ),
      avoidRejectedTimes s l =
        if l.any (fun t => decide (|s - t| < 30)) then DT.plusHours s 1 else s) ∧
    (∀ (q : String) (now : ℤ) (l : List RejEntry) (cr : ChronoResult),
      l ≠ [] →
        (fallbackParse q now (some l) (some cr)).startTime =
          avoidRejectedTimes ((fallbackParse q now none (some cr)).startTime)
            (l.filterMap RejEntry.parsed) ∧
        (fallbackParse q now (some l) (some cr)).endTime =
          DT.plusHours ((fallbackParse q now (some l) (some cr)).startTime) 1) := by
  refine ⟨?_, fun s l => avoidRejectedTimes_eq s l, ?_⟩
  · intro q now rej hasSP raw h
    unfold parseUserQuery
    rw [h]
    rfl
  · intro q now l cr hl
    have hlen : 0 < l.length := List.length_pos.mpr hl
    constructor
    · simp [fallbackParse, hlen]
    · simp [fallbackParse, hlen]

/-- C5 witness: concrete instances of all three parts of the amended
claim. -/
theorem claim_C5_witness :
    parseUserQuery "w" 0 (some [⟨some 2040⟩]) false none LLMOutcome.failure =
      ⟨(defaultTimeSlot 0).startTime, (defaultTimeSlot 0).endTime, 30,
        ParseMethod.fallback_default⟩ ∧
    avoidRejectedTimes 2040 [2040, 2100] =
      (if [(2040 : ℤ), 2100].any (fun t => decide (|(2040 : ℤ) - t| < 30))
       then DT.plusHours 2040 1 else 2040) ∧
    (fallbackParse "x" 0 (some [⟨some 690⟩]) (some ⟨720, true, none⟩)).startTime =
      avoidRejectedTimes
        ((fallbackParse "x" 0 none (some ⟨720, true, none⟩)).startTime)
        ([(⟨some 690⟩ : RejEntry)].filterMap RejEntry.parsed) :=
  ⟨claim_C5_amended.1 "w" 0 (some [⟨some 2040⟩]) false LLMOutcome.failure (by rfl),
   claim_C5_amended.2.1 2040 [2040, 2100],
   (claim_C5_amended.2.2 "x" 0 [⟨some 690⟩] ⟨720, true, none⟩ (by simp)).1⟩

/-- C6: counterexample. The claim states every Intent from the chain
satisfies endTime > startTime. When the primary parse fails and chrono
returns an explicit range whose reinterpreted end lies before its start
(query "3pm to 2pm": start 15:00, end 14:00, hour certain), no heuristic
fires and the range is passed through verbatim, so the produced Intent
has endTime < startTime. -/
theorem claim_C6_counterexample :
    (parseUserQuery "3pm to 2pm" 0 none false (some ⟨900, true, some 840⟩)
        LLMOutcome.failure).endTime <
      (parseUserQuery "3pm to 2pm" 0 none false (some ⟨900, true, some 840⟩)
        LLMOutcome.failure).startTime ∧
    (parseUserQuery "3pm to 2pm" 0 none false (some ⟨900, true, some 840⟩)
        LLMOutcome.failure).startTime = 900 ∧
    (parseUserQuery "3pm to 2pm" 0 none false (some ⟨900, true, some 840⟩)
        LLMOutcome.failure).endTime = 840 := by
  decide

set_option maxHeartbeats 1600000 in
/-- C6 (amended): every Intent produced by the chain satisfies
endTime > startTime, provided that whenever chrono returns an explicit
range its reinterpreted end lies strictly after its start (the primary
stage enforces the invariant itself; the default stage and every
heuristic override satisfy it unconditionally; only the verbatim
pass-through of a chrono range can violate it). -/
theorem claim_C6_amended (q : String) (now : ℤ) (rej : Option (List RejEntry))
    (hasSP : Bool) (chrono : Option ChronoResult) (raw : LLMOutcome)
    (hchrono : ∀ r, chrono = some r → ∀ e, r.endDate = some e → r.startDate < e) :
    (parseUserQuery q now rej hasSP chrono raw).startTime <
      (parseUserQuery q now rej hasSP chrono raw).endTime := by
  unfold parseUserQuery
  cases hp : llmParse hasSP rej raw with
  | some v => simpa using (llmParse_some_inv hasSP rej raw v hp).2
  | none =>
    cases chrono with
    | none =>
      simp only [fallbackParse, defaultTimeSlot, DT.plusHours]
      omega
    | some r =>
      have hr := hchrono r rfl
      cases rej with
      | none =>
        cases he : r.endDate with
        | none =>
          simp only [fallbackParse, he]
          split_ifs <;>
            (dsimp only [DT.plusHours, DT.setTime, DT.dayFloor, DT.hourOf,
              DT.minuteOf] <;> omega)
        | some e =>
          have hre := hr e he
          simp only [fallbackParse, he]
          split_ifs <;>
            (dsimp only [DT.plusHours, DT.setTime, DT.dayFloor, DT.hourOf,
              DT.minuteOf] <;> omega)
      | some l =>
        cases he : r.endDate with
        | none =>
          simp only [fallbackParse, he]
          split_ifs <;>
            (dsimp only [DT.plusHours, DT.setTime, DT.dayFloor, DT.hourOf,
              DT.minuteOf] <;> omega)
        | some e =>
          have hre := hr e he
          simp only [fallbackParse, he]
          split_ifs <;>
            (dsimp only [DT.plusHours, DT.setTime, DT.dayFloor, DT.hourOf,
              DT.minuteOf] <;> omega)

/-- C6 witness: a concrete default-stage run of the amended claim. -/
theorem claim_C6_witness :
    (parseUserQuery "hello" 0 none false none LLMOutcome.failure).startTime <
      (parseUserQuery "hello" 0 none false none LLMOutcome.failure).endTime :=
  claim_C6_amended "hello" 0 none false none LLMOutcome.failure
    (fun _ hr => Option.noConfusion hr)

/-- Auxiliary: a candidate below the 0.5 confidence threshold is always
discarded by the primary parser. -/
theorem llmParse_lowconf (hasSP : Bool) (rej : Option (List RejEntry))
    (c : LLMCandidate) (hconf : c.confidence < 50) :
    llmParse hasSP rej (LLMOutcome.candidate c) = none := by
  cases rej with
  | some l => exact llmParse_rejected hasSP l _
  | none =>
    unfold llmParse buildDateParsingPrompt validateLLMResponse
    cases hasSP <;> simp <;> split_ifs <;> simp_all

/-- C7: if the primary parser's raw output has confidence below 0.5, the
result is discarded and the final method is one of the fallback tags,
never the primary tag. -/
theorem claim_C7 (q : String) (now : ℤ) (rej : Option (List RejEntry))
    (hasSP : Bool) (chrono : Option ChronoResult) (c : LLMCandidate)
    (hconf : c.confidence < 50) :
    (parseUserQuery q now rej hasSP chrono (LLMOutcome.candidate c)).method =
        ParseMethod.fallback_chrono ∨
    (parseUserQuery q now rej hasSP chrono (LLMOutcome.candidate c)).method =
        ParseMethod.fallback_default := by
  unfold parseUserQuery
  rw [llmParse_lowconf hasSP rej c hconf]
  by_cases h : 50 < (fallbackParse q now rej chrono).confidence
  · exact Or.inl (by simp [h])
  · exact Or.inr (by simp [h])

/-- C7 witness: a concrete low-confidence candidate falls back. -/
theorem claim_C7_witness :
    (parseUserQuery "hi" 0 none false none
        (LLMOutcome.candidate ⟨0, 60, 20, 40⟩)).method =
        ParseMethod.fallback_chrono ∨
    (parseUserQuery "hi" 0 none false none
        (LLMOutcome.candidate ⟨0, 60, 20, 40⟩)).method =
        ParseMethod.fallback_default :=
  claim_C7 "hi" 0 none false none ⟨0, 60, 20, 40⟩ (by decide)

/-- C8: for every successful run, each proposed slot's reason equals the
claim's ordered guard table applied to the signed minute difference
d = slot.start − intent.start (thresholds 3 h and 24 h, day counts by
floor division), and its distanceMinutes equals the absolute
difference. -/
theorem claim_C8 (p : ParseDateResult) (flex : ℤ) (rej : List ℤ)
    (src : SlotSource) (res : GuaranteedSlots)
    (h : getGuaranteedSlots p flex rej src = Except.ok res) :
    ∀ q ∈ res.proposed,
      some q.reason = claimReason (q.start - p.startTime) ∧
      q.distanceMinutes = |q.start - p.startTime| := by
  simp only [getGuaranteedSlots] at h
  split at h
  · exact absurd h (by simp)
  · cases h
    intro q hq
    have hq2 := (mem_sortByDistance q _).mp (List.mem_of_mem_take hq)
    obtain ⟨s, _, rfl⟩ := List.mem_map.mp hq2
    constructor
    · simp only [annotateProposed]
      exact (claimReason_eq s.start p.startTime).symm
    · simp [annotateProposed]

/-- C8 witness: a run with one proposed slot two days after the request. -/
theorem claim_C8_witness :
    some "2 days later" = claimReason ((2880 : ℤ) - 0) ∧
    (2880 : ℤ) = |(2880 : ℤ) - 0| :=
  claim_C8 ⟨0, 60, 60, ParseMethod.fallback_chrono⟩ 2 []
    ⟨SlotResp.ok [⟨2880, 2910⟩], SlotResp.err, SlotResp.err, SlotResp.err⟩
    ⟨[], [⟨2880, 2910, 2880, "2 days later"⟩]⟩ (by rfl)
    ⟨2880, 2910, 2880, "2 days later"⟩ (by decide)

set_option maxRecDepth 8000 in
/-- C9: counterexample. The claim states the validator accepts only
userQuery values of 1–500 characters and rejects anything outside the
stated bounds. The schema field is `userMessage` with bound 1–2000, so a
request whose message is 501 characters long (and has no calendarId at
all — the schema has no such field) is accepted. -/
theorem claim_C9_counterexample :
    500 < (String.mk (List.replicate 501 'a')).length ∧
    (AvailabilityRequestSchema
        ⟨some "America/Phoenix", some (String.mk (List.replicate 501 'a')),
         none, none, none, none, none⟩).isSome = true := by
  decide

set_option maxHeartbeats 1600000 in
/-- C9 (amended): the validator accepts exactly the requests with
`timeZone` in the supported-zone enum, `userMessage` of 1–2000
characters, `flexibilityHours` in [0, 24] (whole hours here) defaulting
to 2, optional `systemPrompt` of at most 10000 characters, optional
`rejectedTimes` of at most 50 strings whose content is not validated,
integer `duration` in [15, 180] minutes defaulting to 30, and optional
role-tagged `conversationHistory`; there is no calendarId field. -/
theorem claim_C9_amended (r : RawAvailabilityRequest) :
    (AvailabilityRequestSchema r).isSome = true ↔
      ((∃ tz, r.timeZone = some tz ∧ tz ∈ US_TIMEZONES) ∧
       (∃ msg, r.userMessage = some msg ∧ 1 ≤ msg.length ∧ msg.length ≤ 2000) ∧
       (∀ f, r.flexibilityHours = some f → 0 ≤ f ∧ f ≤ 24) ∧
       (∀ sp, r.systemPrompt = some sp → sp.length ≤ 10000) ∧
       (∀ ts, r.rejectedTimes = some ts → ts.length ≤ 50) ∧
       (∀ d, r.duration = some d → 15 ≤ d ∧ d ≤ 180) ∧
       (∀ hist, r.conversationHistory = some hist →
          ∀ m ∈ hist, validRole m = true)) := by
  obtain ⟨tz, msg, fx, sp, rt, du, ch⟩ := r
  cases tz <;> cases msg <;> cases fx <;> cases sp <;> cases rt <;>
    cases du <;> cases ch <;>
      simp [AvailabilityRequestSchema, Bool.and_eq_true, decide_eq_true_eq,
        List.all_eq_true, and_assoc]

/-- C9 witness: a minimal accepted request, run through the amended
characterization. -/
theorem claim_C9_witness :
    ((∃ tz, (some "America/Phoenix" : Option String) = some tz ∧
        tz ∈ US_TIMEZONES) ∧
     (∃ msg, (some "next tuesday" : Option String) = some msg ∧
        1 ≤ msg.length ∧ msg.length ≤ 2000) ∧
     (∀ f, (none : Option ℤ) = some f → 0 ≤ f ∧ f ≤ 24) ∧
     (∀ sp, (none : Option String) = some sp → sp.length ≤ 10000) ∧
     (∀ ts, (none : Option (List String)) = some ts → ts.length ≤ 50) ∧
     (∀ d, (none : Option ℤ) = some d → 15 ≤ d ∧ d ≤ 180) ∧
     (∀ hist, (none : Option (List ConversationMessage)) = some hist →
        ∀ m ∈ hist, validRole m = true)) :=
  (claim_C9_amended
    ⟨some "America/Phoenix", some "next tuesday", none, none, none, none,
      none⟩).mp (by decide)

/-- C10: whenever a rejectedTimes list is present in the request — even
an empty one — the resolved Intent's method is never the primary tag:
the prompt builder calls `.trim()` on the array the orchestrator passed
where a string was declared, the TypeError is caught, the primary parse
returns null, and the chain falls through to the heuristic or default
fallback. -/
theorem claim_C10 (q : String) (now : ℤ) (ts : List RejEntry) (hasSP : Bool)
    (chrono : Option ChronoResult) (raw : LLMOutcome) :
    (parseUserQuery q now (some ts) hasSP chrono raw).method =
        ParseMethod.fallback_chrono ∨
    (parseUserQuery q now (some ts) hasSP chrono raw).method =
        ParseMethod.fallback_default := by
  unfold parseUserQuery
  rw [llmParse_rejected]
  by_cases h : 50 < (fallbackParse q now (some ts) chrono).confidence
  · exact Or.inl (by simp [h])
  · exact Or.inr (by simp [h])

/-- C10 witness: a rejected-times request with a perfectly valid
high-confidence candidate still falls back. -/
theorem claim_C10_witness :
    (parseUserQuery "tomorrow at 2pm" 0 (some []) false none
        (LLMOutcome.candidate ⟨600, 660, 50, 95⟩)).method =
        ParseMethod.fallback_chrono ∨
    (parseUserQuery "tomorrow at 2pm" 0 (some []) false none
        (LLMOutcome.candidate ⟨600, 660, 50, 95⟩)).method =
        ParseMethod.fallback_default :=
  claim_C10 "tomorrow at 2pm" 0 [] false none
    (LLMOutcome.candidate ⟨600, 660, 50, 95⟩)
